import Mathlib

/-!
Shallow embedding of the process-supervision core of `src/index.js`
(react-mcp): the running-process registry (`runningProcesses`, a JS `Map`),
the non-blocking launcher `startProcess`, the blocking executor
`executeCommand`/`handleRunCommand`, and the tool handlers
`handleCreateReactApp`, `handleRunReactApp`, `handleGetProcessOutput`,
`handleStopProcess`, `handleListProcesses`, `handleInstallPackage`.

Modelling conventions:
* JS strings and numbers become `String`, `Nat` (timestamps in ms) and
  `Int` (exit codes).
* The id produced by `Math.random().toString(36).substring(2, 15)`
  (src/index.js:82) is nondeterministic; it enters the model as an explicit
  `freshId` argument supplied by the environment.
* The spawned OS child process is an external collaborator.  Its handle is
  modelled by `ChildProcessState`: the `exitCode` property (read at
  src/index.js:229, 285), the closure-local accumulators `output` and
  `errorOutput` of `startProcess` (src/index.js:69-80), and a flag
  recording that `kill()` was invoked (src/index.js:266).  Records hold
  the handle by reference, modelled as an index into `SupState.handles`.
* Asynchronous events (a stdout/stderr chunk arriving, the runtime
  reporting process exit) are explicit state-transition functions
  invoked by the environment.
* `fs.existsSync` and `package.json` reading are modelled by a `Fsys`
  value carried in each request: a list of existing directory paths plus
  a map from file paths to parsed manifests.
-/

namespace ReactMcp

/-- The mutable state of one spawned child process, as observable through
the JS closure of `startProcess` and the `ChildProcess` handle:
`exitCode` is `none` while the process is alive (`=== null` in JS),
`stdoutAcc`/`stderrAcc` are the closure-local accumulators `output` and
`errorOutput` that the `data` callbacks append to (src/index.js:72-80),
`killed` records that a termination signal was sent. -/
structure ChildProcessState where
  exitCode : Option Int
  stdoutAcc : String
  stderrAcc : String
  killed : Bool
  deriving DecidableEq

/-- The handle value read through a dangling index; in JS the object
reference is always valid, so well-formed states never reach it. -/
def defaultChild : ChildProcessState :=
  { exitCode := none, stdoutAcc := "", stderrAcc := "", killed := false }

/-- One entry of the `runningProcesses` map, exactly the object literal
stored at src/index.js:84-93.  `process` is the reference to the child
handle (an index into `SupState.handles`); `output` and `errorOutput` are
the *string values* of the closure locals at registration time — JS copies
primitives by value, so these fields are never updated by the `data`
callbacks. -/
structure ProcessInfo where
  process : Nat
  command : String
  args : List String
  cwd : String
  output : String
  errorOutput : String
  startTime : Nat
  processId : String
  deriving DecidableEq

/-- Supervisor state: the spawned child handles and the `runningProcesses`
map (src/index.js:47), an insertion-ordered association list exactly like
a JS `Map`. -/
structure SupState where
  handles : List ChildProcessState
  procs : List (String × ProcessInfo)
  deriving DecidableEq

def initState : SupState := { handles := [], procs := [] }

/-! ### JS `Map` operations on insertion-ordered association lists -/

/-- `Map.prototype.has`. -/
def mapHas (m : List (String × β)) (k : String) : Bool :=
  m.any (fun p => decide (p.1 = k))

/-- `Map.prototype.get`. -/
def mapGet (m : List (String × β)) (k : String) : Option β :=
  (m.find? (fun p => decide (p.1 = k))).map (fun p => p.2)

/-- `Map.prototype.set`: replaces the value in place when the key is
present (keeping its insertion position), otherwise appends. -/
def mapSet (m : List (String × β)) (k : String) (v : β) : List (String × β) :=
  if mapHas m k then m.map (fun p => if p.1 = k then (k, v) else p)
  else m ++ [(k, v)]

/-- Update the element at index `i` of a list, identity out of range. -/
def updateAt : List α → Nat → (α → α) → List α
  | [], _, _ => []
  | a :: as, 0, f => f a :: as
  | a :: as, n + 1, f => a :: updateAt as n f

/-! ### The non-blocking launcher `startProcess` (src/index.js:62-96) -/

/-- `startProcess(command, args, cwd)`: spawns the child (src:63-67),
declares the closure locals `output = ""` and `errorOutput = ""`
(src:69-70) and wires the `data` callbacks to them (src:72-80; modelled by
`stdoutDataStep`/`stderrDataStep` acting on the handle), draws a fresh id
(src:82, modelled as the `freshId` input) and registers the record
(src:84-93).  Because registration runs synchronously before any `data`
event can fire, the record's `output`/`errorOutput` fields capture the
current — empty — string values of the locals, and, strings being
primitives, those fields are never updated afterwards. -/
def startProcess (st : SupState) (command : String) (args : List String)
    (cwd : String) (freshId : String) (now : Nat) : String × SupState :=
  let handleIdx := st.handles.length
  let handles := st.handles ++ [{ exitCode := none, stdoutAcc := "", stderrAcc := "", killed := false }]
  let output : String := ""
  let errorOutput : String := ""
  let processId := freshId
  let info : ProcessInfo :=
    { process := handleIdx, command := command, args := args, cwd := cwd,
      output := output, errorOutput := errorOutput, startTime := now,
      processId := processId }
  (processId, { handles := handles, procs := mapSet st.procs processId info })

/-- Environment event: a chunk arrives on the child's stdout; the callback
at src/index.js:72-75 appends it to the closure-local accumulator. -/
def stdoutDataStep (st : SupState) (h : Nat) (chunk : String) : SupState :=
  let f := fun cp => { cp with stdoutAcc := cp.stdoutAcc ++ chunk }
  { st with handles := updateAt st.handles h f }

/-- Environment event: a chunk arrives on the child's stderr
(src/index.js:77-80). -/
def stderrDataStep (st : SupState) (h : Nat) (chunk : String) : SupState :=
  let f := fun cp => { cp with stderrAcc := cp.stderrAcc ++ chunk }
  { st with handles := updateAt st.handles h f }

/-- Modelled from the spec: the child-process runtime (not part of
src/index.js) assigns the handle's `exitCode` exactly once, when the
process terminates (spec section 3: "`exitCode`: absent while running;
set exactly once ... when the process terminates"). -/
def procExitStep (st : SupState) (h : Nat) (code : Int) : SupState :=
  let f := fun cp => { cp with exitCode := some code }
  { st with handles := updateAt st.handles h f }

/-! ### `handleGetProcessOutput` (src/index.js:216-249) -/

inductive GetOutputResult where
  | ok (processId command directory : String) (isRunning : Bool)
       (exitCode : Option Int) (output errorOutput : String)
       (startTime runTime : Nat)
  | err (error : String)
  deriving DecidableEq

/-- Projection of the `isRunning` field of a status result, `none` on an
error-shaped result. -/
def GetOutputResult.runningField : GetOutputResult → Option Bool
  | .ok _ _ _ r _ _ _ _ _ => some r
  | .err _ => none

/-- Projection of the `output` field of a status result. -/
def GetOutputResult.outputField : GetOutputResult → Option String
  | .ok _ _ _ _ _ o _ _ _ => some o
  | .err _ => none

/-- `handleGetProcessOutput` (src/index.js:216-249): rejects a falsy id,
then an unregistered id (the thrown errors are caught at src:244-248 and
returned as `error` results); otherwise reads the record and computes
`isRunning` as `process.exitCode === null` (src:229). -/
def handleGetProcessOutput (st : SupState) (processId : String) (now : Nat) :
    GetOutputResult :=
  if processId = "" then
    .err "Error getting process output: Process ID is required"
  else
    match mapGet st.procs processId with
    | none =>
        .err ("Error getting process output: Process with ID " ++ processId ++ " not found")
    | some info =>
        let cp := st.handles.getD info.process defaultChild
        .ok processId (info.command ++ " " ++ String.intercalate " " info.args)
          info.cwd cp.exitCode.isNone cp.exitCode info.output info.errorOutput
          info.startTime ((now - info.startTime) / 1000)

/-! ### Filesystem model for `fs.existsSync` and `package.json` reads -/

/-- A parsed `package.json`: the `dependencies` field is absent (`none`)
or a list of declared dependency names. -/
structure PackageJson where
  dependencies : Option (List String)
  deriving DecidableEq

/-- The filesystem visible to a request: existing directory paths and the
parsed manifests of existing `package.json` files. -/
structure Fsys where
  dirs : List String
  files : List (String × PackageJson)
  deriving DecidableEq

/-- `fs.existsSync`. -/
def existsSync (fsys : Fsys) (p : String) : Bool :=
  fsys.dirs.any (fun d => decide (d = p)) ||
    fsys.files.any (fun f => decide (f.1 = p))

/-- `fs.readFileSync` + `JSON.parse` of a manifest file; `none` when the
path is not a readable manifest (the JS code would throw, and the handler
catch would turn that into an `error` result). -/
def readManifest (fsys : Fsys) (p : String) : Option PackageJson :=
  (fsys.files.find? (fun f => decide (f.1 = p))).map (fun f => f.2)

/-- `path.join(a, b)`; the handlers never rely on normalization, so plain
separator concatenation is faithful here. -/
def pathJoin (a b : String) : String := a ++ "/" ++ b

/-- JS `x || dflt` on an optional string argument: `undefined` and the
empty string are falsy. -/
def jsOrString (x : Option String) (dflt : String) : String :=
  match x with
  | some s => if s = "" then dflt else s
  | none => dflt

/-! ### The blocking executor (src/index.js:50-59, 183-214) -/

/-- The outcome of `exec(command, options, callback)` for one request,
chosen by the environment: `error` is `some msg` exactly when the command
failed (non-zero exit or spawn failure, `msg` the `Error`'s message),
`stdout`/`stderr` the captured streams. -/
structure ExecBehavior where
  error : Option String
  stdout : String
  stderr : String
  deriving DecidableEq

/-- Result shape of `run-command`: the success object of src/index.js:202-207
or the catch object `\x7berror, stderr\x7d` of src/index.js:208-213. -/
inductive RunCommandResult where
  | ok (command directory output stderr : String)
  | err (error stderr : String)
  deriving DecidableEq

/-- Does the result carry an `error` field? -/
def RunCommandResult.hasErrorField : RunCommandResult → Bool
  | .ok _ _ _ _ => false
  | .err _ _ => true

/-- `executeCommand` (src/index.js:50-59): resolves with the streams on
success, rejects with `\x7berror, stderr\x7d` when `exec` reports an error. -/
def executeCommand (beh : ExecBehavior) :
    Except (Option String × String) (String × String) :=
  match beh.error with
  | some e => .error (some e, beh.stderr)
  | none => .ok (beh.stdout, beh.stderr)

/-- `handleRunCommand` (src/index.js:183-214).  Note the catch block reads
`error.message` from the rejected plain object `\x7berror, stderr\x7d`,
which has no `message` property, so the interpolated text is the string
`"undefined"`. -/
def handleRunCommand (fsys : Fsys) (cwdDefault : String) (beh : ExecBehavior)
    (command : String) (directory : Option String) : RunCommandResult :=
  if command = "" then
    .err "Error executing command: Command is required" ""
  else
    let workingDir := jsOrString directory cwdDefault
    if existsSync fsys workingDir then
      match executeCommand beh with
      | .ok (stdout, stderr) => .ok command workingDir stdout stderr
      | .error (_, stderr) => .err "Error executing command: undefined" stderr
    else
      .err ("Error executing command: Directory " ++ workingDir ++ " does not exist") ""

/-! ### `handleCreateReactApp` (src/index.js:99-138) -/

inductive CreateResult where
  | ok (message processId projectDir : String)
  | err (error : String)
  deriving DecidableEq

def CreateResult.isErr : CreateResult → Bool
  | .ok _ _ _ => false
  | .err _ => true

/-- `handleCreateReactApp` (src/index.js:99-138): requires a truthy name,
rejects an already-existing target `projectDir = baseDir/name`, then
launches `npx create-react-app ...` in `baseDir`.  The existence of
`baseDir` itself is never checked. -/
def handleCreateReactApp (fsys : Fsys) (homedir : String) (st : SupState)
    (name : String) (template directory : Option String)
    (freshId : String) (now : Nat) : CreateResult × SupState :=
  if name = "" then
    (.err "Error creating React app: Project name is required", st)
  else
    let baseDir := jsOrString directory homedir
    let projectDir := pathJoin baseDir name
    if existsSync fsys projectDir then
      (.err ("Error creating React app: Directory " ++ projectDir ++ " already exists"), st)
    else
      let createCommand :=
        match template with
        | some t =>
            if t = "" then "npx create-react-app " ++ name
            else "npx create-react-app " ++ name ++ " --template " ++ t
        | none => "npx create-react-app " ++ name
      let r := startProcess st createCommand [] baseDir freshId now
      (.ok ("Creating React app \"" ++ name ++ "\" in " ++ projectDir)
        r.1 projectDir, r.2)

/-! ### `handleRunReactApp` (src/index.js:140-181) -/

inductive RunAppResult where
  | ok (message processId note : String)
  | err (error : String)
  deriving DecidableEq

def RunAppResult.isErr : RunAppResult → Bool
  | .ok _ _ _ => false
  | .err _ => true

/-- `handleRunReactApp` (src/index.js:140-181): requires a truthy path, an
existing directory, an existing `package.json` with a `react` entry under
`dependencies`; only then launches `npm start` there. -/
def handleRunReactApp (fsys : Fsys) (st : SupState) (projectPath : String)
    (freshId : String) (now : Nat) : RunAppResult × SupState :=
  if projectPath = "" then
    (.err "Error running React app: Project path is required", st)
  else if existsSync fsys projectPath then
    -- `packageJsonPath` (src/index.js:154) inlined
    if existsSync fsys (pathJoin projectPath "package.json") then
      match readManifest fsys (pathJoin projectPath "package.json") with
      | none =>
          -- readFileSync / JSON.parse threw (e.g. the path is a directory
          -- or holds malformed JSON); caught at src/index.js:176-180.  The
          -- message text is runtime-dependent; no theorem relies on it.
          (.err "Error running React app: package.json could not be parsed", st)
      | some pj =>
          match pj.dependencies with
          | none =>
              (.err "Error running React app: Not a valid React app: react dependency not found in package.json", st)
          | some deps =>
              if deps.any (fun d => decide (d = "react")) then
                let r := startProcess st "npm" ["start"] projectPath freshId now
                (.ok ("Starting React development server in " ++ projectPath)
                  r.1 "The development server should be accessible at http://localhost:3000",
                 r.2)
              else
                (.err "Error running React app: Not a valid React app: react dependency not found in package.json", st)
    else
      (.err ("Error running React app: Not a valid React app: package.json not found in " ++ projectPath), st)
  else
    (.err ("Error running React app: Directory " ++ projectPath ++ " does not exist"), st)

/-- The condition under which `handleRunReactApp` reaches its launch
branch: the target has a readable manifest declaring a `react`
dependency. -/
def hasReactDep (fsys : Fsys) (projectPath : String) : Bool :=
  match readManifest fsys (pathJoin projectPath "package.json") with
  | some pj =>
      match pj.dependencies with
      | some deps => deps.any (fun d => decide (d = "react"))
      | none => false
  | none => false

/-! ### `handleStopProcess` (src/index.js:251-278) -/

inductive StopResult where
  | ok (message command directory : String)
  | err (error : String)
  deriving DecidableEq

def StopResult.isOk : StopResult → Bool
  | .ok _ _ _ => true
  | .err _ => false

/-- `handleStopProcess` (src/index.js:251-278): rejects a falsy or
unregistered id as a caught `error` result; otherwise calls
`process.kill()` — which sends the termination signal and returns
immediately, succeeding even when the process already exited — and
returns the success object.  The record is never removed from the map. -/
def handleStopProcess (st : SupState) (processId : String) :
    StopResult × SupState :=
  if processId = "" then
    (.err "Error stopping process: Process ID is required", st)
  else
    match mapGet st.procs processId with
    | none =>
        (.err ("Error stopping process: Process with ID " ++ processId ++ " not found"), st)
    | some info =>
        let f := fun cp => { cp with killed := true }
        (.ok ("Process " ++ processId ++ " stopped")
          (info.command ++ " " ++ String.intercalate " " info.args) info.cwd,
         { st with handles := updateAt st.handles info.process f })

/-! ### `handleListProcesses` (src/index.js:280-309) -/

/-- One element of the `processes` array built at src/index.js:287-297. -/
structure ProcSnapshot where
  processId : String
  command : String
  directory : String
  isRunning : Bool
  exitCode : Option Int
  startTime : Nat
  runTime : Nat
  deriving DecidableEq

/-- Result shape of `list-processes`; the `err` shape exists because the
handler body sits in a try/catch (src/index.js:304-308), though the body
never throws. -/
inductive ListResult where
  | ok (processes : List ProcSnapshot) (count : Nat)
  | err (error : String)
  deriving DecidableEq

def ListResult.isOk : ListResult → Bool
  | .ok _ _ => true
  | .err _ => false

def listResultSnapshots : ListResult → List ProcSnapshot
  | .ok ps _ => ps
  | .err _ => []

def listResultCount : ListResult → Nat
  | .ok _ c => c
  | .err _ => 0

def listResultIds (r : ListResult) : List String :=
  (listResultSnapshots r).map ProcSnapshot.processId

/-- The snapshot pushed for one map entry (src/index.js:284-297). -/
def snapshotOf (st : SupState) (now : Nat) (p : String × ProcessInfo) :
    ProcSnapshot :=
  let cp := st.handles.getD p.2.process defaultChild
  { processId := p.1,
    command := p.2.command ++ " " ++ String.intercalate " " p.2.args,
    directory := p.2.cwd,
    isRunning := cp.exitCode.isNone,
    exitCode := cp.exitCode,
    startTime := p.2.startTime,
    runTime := (now - p.2.startTime) / 1000 }

/-- `handleListProcesses` (src/index.js:280-309): one snapshot per map
entry, in the map's insertion order, `count` the array length. -/
def handleListProcesses (st : SupState) (now : Nat) : ListResult :=
  let processes := st.procs.map (snapshotOf st now)
  .ok processes processes.length

/-! ### `handleInstallPackage` (src/index.js:372-413) -/

inductive InstallResult where
  | ok (message processId command : String)
  | err (error : String)
  deriving DecidableEq

/-- `handleInstallPackage` (src/index.js:372-413): requires a truthy
package name, an existing working directory and an existing
`package.json` there, then launches `npm install ...`. -/
def handleInstallPackage (fsys : Fsys) (cwdDefault : String) (st : SupState)
    (packageName : String) (directory : Option String) (dev : Bool)
    (freshId : String) (now : Nat) : InstallResult × SupState :=
  if packageName = "" then
    (.err "Error installing package: Package name is required", st)
  else
    let workingDir := jsOrString directory cwdDefault
    if existsSync fsys workingDir then
      if existsSync fsys (pathJoin workingDir "package.json") then
        let installCommand :=
          if dev then "npm install " ++ packageName ++ " --save-dev"
          else "npm install " ++ packageName
        let r := startProcess st installCommand [] workingDir freshId now
        (.ok ("Installing " ++ packageName ++ " in " ++ workingDir)
          r.1 installCommand, r.2)
      else
        (.err ("Error installing package: Not a valid Node.js project: package.json not found in " ++ workingDir), st)
    else
      (.err ("Error installing package: Directory " ++ workingDir ++ " does not exist"), st)

/-! ### All supervisor-state operations as one step relation -/

/-- One operation on the supervisor state: a tool invocation (with the
environment data it observes) or an asynchronous child-process event. -/
inductive Action where
  | createReactApp (fsys : Fsys) (homedir name : String)
      (template directory : Option String) (freshId : String) (now : Nat)
  | runReactApp (fsys : Fsys) (projectPath freshId : String) (now : Nat)
  | runCommand (fsys : Fsys) (cwdDefault : String) (beh : ExecBehavior)
      (command : String) (directory : Option String)
  | getProcessOutput (processId : String) (now : Nat)
  | stopProcess (processId : String)
  | listProcesses (now : Nat)
  | installPackage (fsys : Fsys) (cwdDefault packageName : String)
      (directory : Option String) (dev : Bool) (freshId : String) (now : Nat)
  | stdoutData (h : Nat) (chunk : String)
  | stderrData (h : Nat) (chunk : String)
  | procExit (h : Nat) (code : Int)

/-- The effect of each operation on the supervisor state.  The blocking
executor, the status query and the listing never touch the registry. -/
def step (st : SupState) : Action → SupState
  | .createReactApp fsys homedir name template directory freshId now =>
      (handleCreateReactApp fsys homedir st name template directory freshId now).2
  | .runReactApp fsys projectPath freshId now =>
      (handleRunReactApp fsys st projectPath freshId now).2
  | .runCommand _ _ _ _ _ => st
  | .getProcessOutput _ _ => st
  | .stopProcess processId => (handleStopProcess st processId).2
  | .listProcesses _ => st
  | .installPackage fsys cwdDefault packageName directory dev freshId now =>
      (handleInstallPackage fsys cwdDefault st packageName directory dev freshId now).2
  | .stdoutData h chunk => stdoutDataStep st h chunk
  | .stderrData h chunk => stderrDataStep st h chunk
  | .procExit h code => procExitStep st h code

/-- The ids currently registered, in insertion order. -/
def procKeys (st : SupState) : List String := st.procs.map Prod.fst

/-- Each stored record's `processId` field equals the key it is stored
under. -/
def procsIdInv (st : SupState) : Bool :=
  st.procs.all (fun p => decide (p.2.processId = p.1))

/-- A launch request for the non-blocking launcher, with the id the
environment's `Math.random` produces for it. -/
structure LaunchReq where
  command : String
  args : List String
  cwd : String
  freshId : String
  now : Nat
  deriving DecidableEq

/-- Run a sequence of launches. -/
def launchAll (st : SupState) : List LaunchReq → SupState
  | [] => st
  | r :: rs => launchAll (startProcess st r.command r.args r.cwd r.freshId r.now).2 rs

/-! ### Concrete states used by the closed theorems -/

/-- Launch `echo hello`, then the environment delivers the stdout chunk
and the exit notification. -/
def helloSt1 : SupState :=
  (startProcess initState "echo hello" [] "/tmp" "abc123def4567" 0).2

def helloSt2 : SupState := stdoutDataStep helloSt1 0 "hello\n"

def helloSt3 : SupState := procExitStep helloSt2 0 0

/-- One registered long-running process. -/
def wState1 : SupState := (startProcess initState "sleep 100" [] "/tmp" "pid1" 0).2

/-- The record `wState1` stores under `"pid1"`. -/
def wInfo : ProcessInfo :=
  { process := 0, command := "sleep 100", args := [], cwd := "/tmp",
    output := "", errorOutput := "", startTime := 0, processId := "pid1" }

/-- `wState1` after the runtime reported the process exited with code 0. -/
def wDead : SupState := procExitStep wState1 0 0

/-- Two launches for which `Math.random` happened to produce the same id:
the second `Map.set` overwrites the first record. -/
def dupSt : SupState :=
  (startProcess (startProcess initState "echo a" [] "/tmp" "dupid" 0).2
    "echo b" [] "/tmp" "dupid" 1).2

/-- Two launches with distinct environment-generated ids. -/
def c4reqs : List LaunchReq :=
  [{ command := "echo a", args := [], cwd := "/tmp", freshId := "ida", now := 0 },
   { command := "echo b", args := [], cwd := "/tmp", freshId := "idb", now := 1 }]

/-! ### Helper lemmas on `updateAt` and the map operations -/

theorem length_updateAt (l : List α) (i : Nat) (f : α → α) :
    (updateAt l i f).length = l.length := by
  induction l generalizing i with
  | nil => rfl
  | cons a as ih =>
    cases i with
    | zero => rfl
    | succ n => simp [updateAt, ih]

theorem getD_updateAt_self (l : List α) (i : Nat) (f : α → α) (d : α)
    (h : i < l.length) : (updateAt l i f).getD i d = f (l.getD i d) := by
  induction l generalizing i with
  | nil => simp at h
  | cons a as ih =>
    cases i with
    | zero => rfl
    | succ n =>
      simpa [updateAt] using ih n (by simpa using h)

theorem updateAt_updateAt (l : List α) (i : Nat) (f g : α → α) :
    updateAt (updateAt l i f) i g = updateAt l i (fun a => g (f a)) := by
  induction l generalizing i with
  | nil => rfl
  | cons a as ih =>
    cases i with
    | zero => rfl
    | succ n => simp [updateAt, ih]

theorem getD_exitCode_procExit (hl : List ChildProcessState) (i : Nat)
    (code : Int) (h : i < hl.length) :
    ((updateAt hl i (fun cp => { cp with exitCode := some code })).getD i
      defaultChild).exitCode = some code := by
  rw [getD_updateAt_self _ _ _ _ h]

/-! ### `handleStopProcess` facts -/

/-- `stop-process` never adds or removes a registry entry. -/
theorem stopProcess_procs (st : SupState) (pid : String) :
    (handleStopProcess st pid).2.procs = st.procs := by
  unfold handleStopProcess
  split
  · rfl
  · cases h : mapGet st.procs pid <;> simp

/-- The full behaviour of `stop-process` on a registered id. -/
theorem stopProcess_found (st : SupState) (pid : String) (info : ProcessInfo)
    (hpid : pid ≠ "") (hreg : mapGet st.procs pid = some info) :
    handleStopProcess st pid =
      (StopResult.ok ("Process " ++ pid ++ " stopped")
        (info.command ++ " " ++ String.intercalate " " info.args) info.cwd,
       { st with handles := (updateAt st.handles info.process
          (fun cp => { cp with killed := true })) }) := by
  unfold handleStopProcess
  rw [if_neg hpid, hreg]

/-! ### Claim C2 -/

/-- Claim C2: after a `stop-process` call on a registered id, once the
underlying process is no longer alive — the runtime has reported its exit
(here: ended by the termination signal, code 143) — a status query reports
`isRunning = false`. -/
theorem c2_status_not_running_after_terminate_and_exit
    (st : SupState) (pid : String) (info : ProcessInfo) (code : Int) (now : Nat)
    (hpid : pid ≠ "") (hreg : mapGet st.procs pid = some info)
    (hlt : info.process < st.handles.length) :
    (handleGetProcessOutput
        (procExitStep (handleStopProcess st pid).2 info.process code) pid
        now).runningField = some false := by
  have hfound := stopProcess_found st pid info hpid hreg
  have hprocs : (procExitStep (handleStopProcess st pid).2 info.process code).procs
      = st.procs := by
    rw [hfound]
    rfl
  have hlen : info.process < (handleStopProcess st pid).2.handles.length := by
    rw [hfound]
    simpa [length_updateAt] using hlt
  have hcp := getD_exitCode_procExit (handleStopProcess st pid).2.handles
    info.process code hlen
  unfold handleGetProcessOutput
  rw [if_neg hpid, hprocs, hreg]
  simp only [procExitStep]
  rw [hcp]
  rfl

/-! ### Claim C7 -/

/-- Claim C7: `stop-process` on a registered id whose process has already
exited returns the success shape, and a second call returns the same
result and the same state. -/
theorem c7_stop_dead_process_success_idempotent
    (st : SupState) (pid : String) (info : ProcessInfo) (code : Int)
    (hpid : pid ≠ "") (hreg : mapGet st.procs pid = some info)
    (hdead : (st.handles.getD info.process defaultChild).exitCode = some code) :
    (handleStopProcess st pid).1 =
      StopResult.ok ("Process " ++ pid ++ " stopped")
        (info.command ++ " " ++ String.intercalate " " info.args) info.cwd
    ∧ handleStopProcess (handleStopProcess st pid).2 pid
        = handleStopProcess st pid := by
  have h1 := stopProcess_found st pid info hpid hreg
  have hreg2 : mapGet (handleStopProcess st pid).2.procs pid = some info := by
    rw [stopProcess_procs]
    exact hreg
  have h2 := stopProcess_found (handleStopProcess st pid).2 pid info hpid hreg2
  refine ⟨by rw [h1], ?_⟩
  rw [h2, h1, updateAt_updateAt]

/-! ### Claim C8 -/

/-- Claim C8: on an id never registered, both the status query and
`stop-process` return an ordinary result whose `error` field names the id
(the handlers catch the internal throw), and `stop-process` leaves the
state untouched. -/
theorem c8_unknown_id_error_results (st : SupState) (pid : String) (now : Nat)
    (hpid : pid ≠ "") (hreg : mapGet st.procs pid = none) :
    handleGetProcessOutput st pid now =
      GetOutputResult.err
        ("Error getting process output: Process with ID " ++ pid ++ " not found")
    ∧ handleStopProcess st pid =
      (StopResult.err
        ("Error stopping process: Process with ID " ++ pid ++ " not found"), st) := by
  constructor
  · unfold handleGetProcessOutput
    rw [if_neg hpid, hreg]
  · unfold handleStopProcess
    rw [if_neg hpid, hreg]

/-! ### Claim C5 -/

/-- Claim C5: whenever the blocking executor's command fails (the `exec`
callback receives an error, as it does on a non-zero exit), the result of
`run-command` is the `\x7berror, stderr\x7d` shape, never the success
shape. -/
theorem c5_runCommand_failure_has_error_field
    (fsys : Fsys) (cwdDefault : String) (beh : ExecBehavior)
    (command : String) (directory : Option String)
    (h : beh.error.isSome = true) :
    (handleRunCommand fsys cwdDefault beh command directory).hasErrorField
      = true := by
  cases hbe : beh.error with
  | none => rw [hbe] at h; simp at h
  | some e =>
    simp only [handleRunCommand, executeCommand, hbe]
    split
    · rfl
    · split
      · rfl
      · rfl

/-! ### Claim C6 -/

/-- Claim C6: when the target of `run-app` has no readable manifest
declaring a `react` dependency — in particular when `package.json` is
missing altogether — the result is error-shaped and the supervisor state
is completely unchanged: no process is spawned and the registry keeps
exactly its previous records. -/
theorem c6_runApp_invalid_project_error_and_unchanged
    (fsys : Fsys) (st : SupState) (projectPath freshId : String) (now : Nat)
    (h : hasReactDep fsys projectPath = false) :
    (handleRunReactApp fsys st projectPath freshId now).1.isErr = true
    ∧ (handleRunReactApp fsys st projectPath freshId now).2 = st := by
  unfold hasReactDep at h
  unfold handleRunReactApp
  split
  · exact ⟨rfl, rfl⟩
  · split
    · split
      · split
        · exact ⟨rfl, rfl⟩
        · split
          · exact ⟨rfl, rfl⟩
          · split
            · exfalso
              rename_i hm x2 deps hd hany
              rw [hm] at h
              simp only at h
              rw [hd] at h
              simp only at h
              rw [h] at hany
              exact Bool.false_ne_true hany
            · exact ⟨rfl, rfl⟩
      · exact ⟨rfl, rfl⟩
    · exact ⟨rfl, rfl⟩

/-! ### Claim C3 -/

/-- Counterexample to claim C3: `create-react-app` with an explicit base
directory that does not exist succeeds and spawns a process there instead
of failing with a directory-not-found error — in an empty filesystem the
preset still registers one process. -/
theorem c3_cex_createApp_succeeds_in_missing_dir :
    (handleCreateReactApp ⟨[], []⟩ "/home/user" initState "myapp" none
        (some "/nonexistent") "id1abc" 0).1 =
      CreateResult.ok "Creating React app \"myapp\" in /nonexistent/myapp"
        "id1abc" "/nonexistent/myapp"
    ∧ (handleCreateReactApp ⟨[], []⟩ "/home/user" initState "myapp" none
        (some "/nonexistent") "id1abc" 0).2.procs.length = 1
    ∧ existsSync ⟨[], []⟩ "/nonexistent" = false := by
  refine ⟨by decide, by decide, by decide⟩

/-- Claim C3 as amended: the working-directory existence check is done by
the handlers `run-app`, `run-command` and `install-package`, which fail
with a does-not-exist error and leave the state unchanged; the launch
primitive itself and the `create-react-app` preset perform no such check
(see the counterexample). -/
theorem c3_amended_dir_check_in_run_handlers
    (fsys : Fsys) (st : SupState) (projectPath freshId : String) (now : Nat)
    (cwdDefault : String) (beh : ExecBehavior) (command d pkg : String)
    (dev : Bool)
    (hpp : projectPath ≠ "") (hppe : existsSync fsys projectPath = false)
    (hc : command ≠ "") (hd : d ≠ "") (hde : existsSync fsys d = false)
    (hpkg : pkg ≠ "") :
    handleRunReactApp fsys st projectPath freshId now =
      (RunAppResult.err
        ("Error running React app: Directory " ++ projectPath ++ " does not exist"),
       st)
    ∧ handleRunCommand fsys cwdDefault beh command (some d) =
      RunCommandResult.err
        ("Error executing command: Directory " ++ d ++ " does not exist") ""
    ∧ handleInstallPackage fsys cwdDefault st pkg (some d) dev freshId now =
      (InstallResult.err
        ("Error installing package: Directory " ++ d ++ " does not exist"),
       st) := by
  have hjs : jsOrString (some d) cwdDefault = d := by
    simp [jsOrString, hd]
  refine ⟨?_, ?_, ?_⟩
  · unfold handleRunReactApp
    rw [if_neg hpp, if_neg (by rw [hppe]; exact Bool.false_ne_true)]
  · unfold handleRunCommand
    rw [if_neg hc, hjs, if_neg (by rw [hde]; exact Bool.false_ne_true)]
  · unfold handleInstallPackage
    rw [if_neg hpkg, hjs, if_neg (by rw [hde]; exact Bool.false_ne_true)]

/-! ### Claim C1 -/

/-- Claim C1: every stdout chunk is appended to the process's registered
stdout buffer, so that after a process prints `hello` and exits, the
status query returns `output = "hello\n"`.  The code violates this: the
record captures the closure local `output` by value at registration time,
so the stream accumulator does receive `"hello\n"` but the status query
returns the frozen empty snapshot. -/
theorem c1_status_output_stays_empty :
    handleGetProcessOutput helloSt3 "abc123def4567" 1000 =
      GetOutputResult.ok "abc123def4567" "echo hello " "/tmp" false (some 0)
        "" "" 0 1
    ∧ (helloSt3.handles.getD 0 defaultChild).stdoutAcc = "hello\n"
    ∧ (handleGetProcessOutput helloSt3 "abc123def4567" 1000).outputField ≠
        some "hello\n" := by
  refine ⟨by decide, by decide, by decide⟩

/-! ### Key-set lemmas for the registry map -/

theorem mapHas_eq_true_iff (m : List (String × β)) (k : String) :
    mapHas m k = true ↔ k ∈ m.map Prod.fst := by
  simp [mapHas, List.any_eq_true, List.mem_map]

theorem keys_mapSet_of_has (m : List (String × β)) (k : String) (v : β)
    (h : mapHas m k = true) :
    (mapSet m k v).map Prod.fst = m.map Prod.fst := by
  unfold mapSet
  rw [if_pos h, List.map_map]
  apply List.map_congr_left
  intro p hp
  by_cases h2 : p.1 = k
  · simp [h2]
  · simp [h2]

theorem keys_mapSet_of_not_has (m : List (String × β)) (k : String) (v : β)
    (h : mapHas m k = false) :
    (mapSet m k v).map Prod.fst = m.map Prod.fst ++ [k] := by
  unfold mapSet
  rw [if_neg (by rw [h]; exact Bool.false_ne_true), List.map_append]
  rfl

theorem mem_keys_mapSet (m : List (String × β)) (k : String) (v : β)
    (x : String) (hx : x ∈ m.map Prod.fst) :
    x ∈ (mapSet m k v).map Prod.fst := by
  by_cases h : mapHas m k = true
  · rwa [keys_mapSet_of_has m k v h]
  · rw [keys_mapSet_of_not_has m k v (by simpa using h)]
    exact List.mem_append_left _ hx

theorem find?_map_replace (m : List (String × β)) (k : String) (v : β)
    (h : mapHas m k = true) :
    (m.map (fun p => if p.1 = k then (k, v) else p)).find?
      (fun p => decide (p.1 = k)) = some (k, v) := by
  induction m with
  | nil => simp [mapHas] at h
  | cons p m ih =>
    by_cases hp : p.1 = k
    · simp [List.find?, hp]
    · have h2 : mapHas m k = true := by
        simpa [mapHas, hp] using h
      rw [List.map_cons, if_neg hp, List.find?_cons_of_neg _ (by simp [hp])]
      exact ih h2

theorem find?_append_singleton (m : List (String × β)) (k : String) (v : β)
    (h : mapHas m k = false) :
    (m ++ [(k, v)]).find? (fun p => decide (p.1 = k)) = some (k, v) := by
  induction m with
  | nil => simp [List.find?]
  | cons p m ih =>
    have hp : ¬ p.1 = k := by
      intro he
      simp [mapHas, he] at h
    rw [List.cons_append, List.find?_cons_of_neg _ (by simp [hp])]
    exact ih (by simpa [mapHas, hp] using h)

theorem mapGet_mapSet_self (m : List (String × β)) (k : String) (v : β) :
    mapGet (mapSet m k v) k = some v := by
  unfold mapGet mapSet
  by_cases h : mapHas m k = true
  · rw [if_pos h, find?_map_replace m k v h]
    rfl
  · rw [if_neg h, find?_append_singleton m k v (by simpa using h)]
    rfl

theorem all_mapSet (m : List (String × β)) (k : String) (v : β)
    (P : String × β → Bool) (hm : m.all P = true) (hv : P (k, v) = true) :
    (mapSet m k v).all P = true := by
  unfold mapSet
  split
  · rw [List.all_eq_true] at hm ⊢
    intro x hx
    rcases List.mem_map.mp hx with ⟨p, hp, rfl⟩
    by_cases h2 : p.1 = k
    · simpa [h2] using hv
    · simpa [h2] using hm p hp
  · rw [List.all_eq_true] at hm ⊢
    intro x hx
    rcases List.mem_append.mp hx with h2 | h2
    · exact hm x h2
    · have hxv : x = (k, v) := List.mem_singleton.mp h2
      rw [hxv]
      exact hv

/-! ### `startProcess` facts -/

theorem startProcess_fst (st : SupState) (c : String) (a : List String)
    (w id : String) (t : Nat) : (startProcess st c a w id t).1 = id := rfl

theorem startProcess_procs (st : SupState) (c : String) (a : List String)
    (w id : String) (t : Nat) :
    (startProcess st c a w id t).2.procs = mapSet st.procs id
      { process := st.handles.length, command := c, args := a, cwd := w,
        output := "", errorOutput := "", startTime := t, processId := id } := rfl

theorem mem_procKeys_startProcess (st : SupState) (c : String)
    (a : List String) (w id : String) (t : Nat) (k : String)
    (h : k ∈ procKeys st) :
    k ∈ procKeys (startProcess st c a w id t).2 := by
  unfold procKeys at h ⊢
  rw [startProcess_procs]
  exact mem_keys_mapSet _ _ _ _ h

theorem procsIdInv_startProcess (st : SupState) (c : String)
    (a : List String) (w id : String) (t : Nat)
    (h : procsIdInv st = true) :
    procsIdInv (startProcess st c a w id t).2 = true := by
  unfold procsIdInv at h ⊢
  rw [startProcess_procs]
  exact all_mapSet _ _ _ _ h (by simp)

/-! ### Per-operation registry facts -/

/-- No operation removes a registered id. -/
theorem mem_procKeys_step (st : SupState) (act : Action) (k : String)
    (h : k ∈ procKeys st) : k ∈ procKeys (step st act) := by
  cases act with
  | createReactApp fsys homedir name template directory freshId now =>
      simp only [step, handleCreateReactApp]
      repeat' split
      all_goals first
        | exact h
        | exact mem_procKeys_startProcess _ _ _ _ _ _ _ h
  | runReactApp fsys projectPath freshId now =>
      simp only [step, handleRunReactApp]
      repeat' split
      all_goals first
        | exact h
        | exact mem_procKeys_startProcess _ _ _ _ _ _ _ h
  | runCommand fsys cwdDefault beh command directory => exact h
  | getProcessOutput pid now => exact h
  | stopProcess pid =>
      simp only [step]
      unfold procKeys at h ⊢
      rw [stopProcess_procs]
      exact h
  | listProcesses now => exact h
  | installPackage fsys cwdDefault packageName directory dev freshId now =>
      simp only [step, handleInstallPackage]
      repeat' split
      all_goals first
        | exact h
        | exact mem_procKeys_startProcess _ _ _ _ _ _ _ h
  | stdoutData hi chunk => exact h
  | stderrData hi chunk => exact h
  | procExit hi code => exact h

/-- Every operation preserves the key/`processId` agreement. -/
theorem procsIdInv_step (st : SupState) (act : Action)
    (h : procsIdInv st = true) : procsIdInv (step st act) = true := by
  cases act with
  | createReactApp fsys homedir name template directory freshId now =>
      simp only [step, handleCreateReactApp]
      repeat' split
      all_goals first
        | exact h
        | exact procsIdInv_startProcess _ _ _ _ _ _ h
  | runReactApp fsys projectPath freshId now =>
      simp only [step, handleRunReactApp]
      repeat' split
      all_goals first
        | exact h
        | exact procsIdInv_startProcess _ _ _ _ _ _ h
  | runCommand fsys cwdDefault beh command directory => exact h
  | getProcessOutput pid now => exact h
  | stopProcess pid =>
      simp only [step]
      unfold procsIdInv at h ⊢
      rw [stopProcess_procs]
      exact h
  | listProcesses now => exact h
  | installPackage fsys cwdDefault packageName directory dev freshId now =>
      simp only [step, handleInstallPackage]
      repeat' split
      all_goals first
        | exact h
        | exact procsIdInv_startProcess _ _ _ _ _ _ h
  | stdoutData hi chunk => exact h
  | stderrData hi chunk => exact h
  | procExit hi code => exact h

/-! ### `list-processes` facts -/

theorem listResultIds_eq_procKeys (st : SupState) (now : Nat) :
    listResultIds (handleListProcesses st now) = procKeys st := by
  unfold listResultIds handleListProcesses listResultSnapshots procKeys
  simp only [List.map_map]
  rfl

theorem listResultCount_eq (st : SupState) (now : Nat) :
    listResultCount (handleListProcesses st now) = st.procs.length := by
  unfold listResultCount handleListProcesses
  simp

/-! ### Sequences of launches -/

theorem launchAll_keys (reqs : List LaunchReq) (st : SupState)
    (h : (procKeys st ++ reqs.map LaunchReq.freshId).Nodup) :
    procKeys (launchAll st reqs) = procKeys st ++ reqs.map LaunchReq.freshId := by
  induction reqs generalizing st with
  | nil => simp [launchAll]
  | cons r rs ih =>
    rcases List.nodup_append.mp (by simpa using h) with ⟨h1, h2, hdisj⟩
    have hnotin : r.freshId ∉ procKeys st := fun hmem => hdisj hmem (by simp)
    have hhas : mapHas st.procs r.freshId = false := by
      cases hc : mapHas st.procs r.freshId with
      | false => rfl
      | true => exact absurd ((mapHas_eq_true_iff _ _).mp hc) hnotin
    have hk : procKeys (startProcess st r.command r.args r.cwd r.freshId r.now).2
        = procKeys st ++ [r.freshId] := by
      unfold procKeys
      rw [startProcess_procs, keys_mapSet_of_not_has _ _ _ hhas]
    have hside : (procKeys (startProcess st r.command r.args r.cwd r.freshId r.now).2
        ++ rs.map LaunchReq.freshId).Nodup := by
      rw [hk, List.append_assoc]
      simpa using h
    show procKeys (launchAll (startProcess st r.command r.args r.cwd r.freshId r.now).2 rs)
        = procKeys st ++ (r :: rs).map LaunchReq.freshId
    rw [ih _ hside, hk, List.append_assoc]
    simp

/-! ### Claim C4 -/

/-- Counterexample to claim C4: two successful launches for which the
environment's `Math.random` produced the same id leave a single record —
the second `Map.set` overwrites the first — so `list-processes` returns 1
record, not 2. -/
theorem c4_cex_duplicate_id_collapses_records :
    listResultCount (handleListProcesses dupSt 2) = 1 ∧ (1 : Nat) ≠ 2 := by
  refine ⟨by decide, by decide⟩

/-- Claim C4 as amended: provided the environment-generated ids of a
sequence of launches are pairwise distinct — a property the code never
checks — `list-processes` after N launches returns exactly N records with
pairwise-distinct ids; a duplicate generated id instead silently
overwrites the earlier record (see the counterexample). -/
theorem c4_amended_fresh_ids_give_distinct_records
    (reqs : List LaunchReq) (now : Nat)
    (h : (reqs.map LaunchReq.freshId).Nodup) :
    listResultCount (handleListProcesses (launchAll initState reqs) now)
      = reqs.length
    ∧ (listResultIds (handleListProcesses (launchAll initState reqs) now)).Nodup := by
  have hkeys : procKeys (launchAll initState reqs) = reqs.map LaunchReq.freshId := by
    have h0 := launchAll_keys reqs initState (by simpa [procKeys, initState] using h)
    simpa [procKeys, initState] using h0
  constructor
  · rw [listResultCount_eq]
    have hlen := congrArg List.length hkeys
    simpa [procKeys] using hlen
  · rw [listResultIds_eq_procKeys, hkeys]
    exact h

/-- Witness for the amended claim C4 at two concrete launches. -/
theorem c4_witness :
    (c4reqs.map LaunchReq.freshId).Nodup
    ∧ (listResultCount (handleListProcesses (launchAll initState c4reqs) 9)
          = c4reqs.length
       ∧ (listResultIds (handleListProcesses (launchAll initState c4reqs) 9)).Nodup) :=
  ⟨by decide, c4_amended_fresh_ids_give_distinct_records c4reqs 9 (by decide)⟩

/-! ### Claim C9 -/

/-- Counterexample to claim C9: the `echo a` record was registered, but
after a second launch drew the same id, no snapshot of it remains in the
`list-processes` result. -/
theorem c9_cex_overwritten_record_missing :
    (mapGet (startProcess initState "echo a" [] "/tmp" "dupid" 0).2.procs
        "dupid").map ProcessInfo.command = some "echo a"
    ∧ (listResultSnapshots (handleListProcesses dupSt 2)).map ProcSnapshot.command
        = ["echo b "] := by
  refine ⟨by decide, by decide⟩

/-- Claim C9 as amended: `list-processes` never fails, returns one
snapshot per current registry entry in insertion order with `count` equal
to the number of snapshots, and no operation removes a registered id —
but a launch that draws an already-used id replaces that entry's record
in place, so a snapshot of every record *ever registered* is guaranteed
only in the absence of id collisions (see the counterexample). -/
theorem c9_amended_list_shape_and_no_removal
    (st : SupState) (now : Nat) (act : Action) (k : String)
    (hk : k ∈ procKeys st) :
    (handleListProcesses st now).isOk = true
    ∧ listResultCount (handleListProcesses st now)
        = (listResultSnapshots (handleListProcesses st now)).length
    ∧ listResultIds (handleListProcesses st now) = procKeys st
    ∧ k ∈ procKeys (step st act) :=
  ⟨rfl, rfl, listResultIds_eq_procKeys st now, mem_procKeys_step st act k hk⟩

/-- Witness for the amended claim C9 on a concrete one-process state. -/
theorem c9_witness :
    ("pid1" ∈ procKeys wState1)
    ∧ ((handleListProcesses wState1 7).isOk = true
       ∧ listResultCount (handleListProcesses wState1 7)
           = (listResultSnapshots (handleListProcesses wState1 7)).length
       ∧ listResultIds (handleListProcesses wState1 7) = procKeys wState1
       ∧ "pid1" ∈ procKeys (step wState1 (Action.procExit 0 0))) :=
  ⟨by decide,
   c9_amended_list_shape_and_no_removal wState1 7 (Action.procExit 0 0) "pid1"
     (by decide)⟩

/-! ### Claim C10 -/

/-- Claim C10: every operation preserves the invariant that each stored
record's `processId` field equals the key it is stored under, and a
launch returns exactly the id under which it stored a record carrying
that id. -/
theorem c10_registry_key_invariant :
    (∀ (st : SupState) (act : Action),
      procsIdInv st = true → procsIdInv (step st act) = true)
    ∧ (∀ (st : SupState) (c : String) (a : List String) (w id : String) (t : Nat),
      (startProcess st c a w id t).1 = id
      ∧ (mapGet (startProcess st c a w id t).2.procs id).map ProcessInfo.processId
          = some id) := by
  constructor
  · exact procsIdInv_step
  · intro st c a w id t
    refine ⟨rfl, ?_⟩
    have hget : mapGet (startProcess st c a w id t).2.procs id = some
        { process := st.handles.length, command := c, args := a, cwd := w,
          output := "", errorOutput := "", startTime := t, processId := id } := by
      rw [startProcess_procs]
      exact mapGet_mapSet_self _ _ _
    rw [hget]
    rfl

/-- Witness for claim C10 at a concrete state and action. -/
theorem c10_witness :
    (procsIdInv wState1 = true
      ∧ procsIdInv (step wState1 (Action.stopProcess "pid1")) = true)
    ∧ ((startProcess initState "ls" [] "/tmp" "w9id" 3).1 = "w9id"
       ∧ (mapGet (startProcess initState "ls" [] "/tmp" "w9id" 3).2.procs
            "w9id").map ProcessInfo.processId = some "w9id") :=
  ⟨⟨by decide,
    c10_registry_key_invariant.1 wState1 (Action.stopProcess "pid1") (by decide)⟩,
   c10_registry_key_invariant.2 initState "ls" [] "/tmp" "w9id" 3⟩

/-! ### Witnesses for the remaining hypothesis-bearing claim theorems -/

/-- Witness for claim C2: terminate the concrete registered process, let
it exit with code 143, and observe `isRunning = false`. -/
theorem c2_witness :
    (("pid1" : String) ≠ "" ∧ mapGet wState1.procs "pid1" = some wInfo
      ∧ wInfo.process < wState1.handles.length)
    ∧ (handleGetProcessOutput
        (procExitStep (handleStopProcess wState1 "pid1").2 wInfo.process 143)
        "pid1" 5000).runningField = some false :=
  ⟨⟨by decide, by decide, by decide⟩,
   c2_status_not_running_after_terminate_and_exit wState1 "pid1" wInfo 143 5000
     (by decide) (by decide) (by decide)⟩

/-- Witness for claim C7 on a concrete already-exited process. -/
theorem c7_witness :
    (("pid1" : String) ≠ "" ∧ mapGet wDead.procs "pid1" = some wInfo
      ∧ (wDead.handles.getD wInfo.process defaultChild).exitCode = some 0)
    ∧ ((handleStopProcess wDead "pid1").1 =
        StopResult.ok ("Process " ++ "pid1" ++ " stopped")
          (wInfo.command ++ " " ++ String.intercalate " " wInfo.args) wInfo.cwd
      ∧ handleStopProcess (handleStopProcess wDead "pid1").2 "pid1"
          = handleStopProcess wDead "pid1") :=
  ⟨⟨by decide, by decide, by decide⟩,
   c7_stop_dead_process_success_idempotent wDead "pid1" wInfo 0
     (by decide) (by decide) (by decide)⟩

/-- Witness for claim C8 at a fabricated id. -/
theorem c8_witness :
    (("nope" : String) ≠ "" ∧ mapGet wState1.procs "nope" = none)
    ∧ (handleGetProcessOutput wState1 "nope" 4 =
        GetOutputResult.err
          ("Error getting process output: Process with ID " ++ "nope" ++ " not found")
      ∧ handleStopProcess wState1 "nope" =
        (StopResult.err
          ("Error stopping process: Process with ID " ++ "nope" ++ " not found"),
         wState1)) :=
  ⟨⟨by decide, by decide⟩,
   c8_unknown_id_error_results wState1 "nope" 4 (by decide) (by decide)⟩

/-- Witness for claim C5: a failing command yields an error-shaped
result. -/
theorem c5_witness :
    (ExecBehavior.mk (some "Command failed: exit 1") "" "boom").error.isSome = true
    ∧ (handleRunCommand ⟨["/tmp"], []⟩ "/cwd"
        (ExecBehavior.mk (some "Command failed: exit 1") "" "boom") "false"
        (some "/tmp")).hasErrorField = true :=
  ⟨by decide,
   c5_runCommand_failure_has_error_field ⟨["/tmp"], []⟩ "/cwd"
     (ExecBehavior.mk (some "Command failed: exit 1") "" "boom") "false"
     (some "/tmp") (by decide)⟩

/-- Witness for claim C6: a directory that exists but has no
`package.json` produces an error result and leaves the state unchanged. -/
theorem c6_witness :
    hasReactDep ⟨["/proj"], []⟩ "/proj" = false
    ∧ ((handleRunReactApp ⟨["/proj"], []⟩ initState "/proj" "widc6" 0).1.isErr = true
       ∧ (handleRunReactApp ⟨["/proj"], []⟩ initState "/proj" "widc6" 0).2 = initState) :=
  ⟨by decide,
   c6_runApp_invalid_project_error_and_unchanged ⟨["/proj"], []⟩ initState
     "/proj" "widc6" 0 (by decide)⟩

/-- Witness for the amended claim C3 on an empty filesystem. -/
theorem c3_amended_witness :
    (("/proj" : String) ≠ "" ∧ existsSync ⟨[], []⟩ "/proj" = false
      ∧ ("ls" : String) ≠ "" ∧ ("/dir" : String) ≠ ""
      ∧ existsSync ⟨[], []⟩ "/dir" = false ∧ ("left-pad" : String) ≠ "")
    ∧ (handleRunReactApp ⟨[], []⟩ initState "/proj" "widc3" 0 =
        (RunAppResult.err
          ("Error running React app: Directory " ++ "/proj" ++ " does not exist"),
         initState)
      ∧ handleRunCommand ⟨[], []⟩ "/cwd" (ExecBehavior.mk none "" "") "ls"
          (some "/dir") =
        RunCommandResult.err
          ("Error executing command: Directory " ++ "/dir" ++ " does not exist") ""
      ∧ handleInstallPackage ⟨[], []⟩ "/cwd" initState "left-pad" (some "/dir")
          false "widc3" 0 =
        (InstallResult.err
          ("Error installing package: Directory " ++ "/dir" ++ " does not exist"),
         initState)) :=
  ⟨⟨by decide, by decide, by decide, by decide, by decide, by decide⟩,
   c3_amended_dir_check_in_run_handlers ⟨[], []⟩ initState "/proj" "widc3" 0
     "/cwd" (ExecBehavior.mk none "" "") "ls" "/dir" "left-pad" false
     (by decide) (by decide) (by decide) (by decide) (by decide) (by decide)⟩

end ReactMcp
